import Mathlib

/-!
Verification of the dual token-bucket rate limiter and its
estimate-then-reconcile accounting protocol (`rate_limiter.py`,
`client.py`, `config.py`, `token_counter.py`).

Real-valued quantities (token counts, rates, monotonic timestamps) are
modelled as rationals so that every operation is exactly computable.
The ambient monotonic clock of the Python code is threaded explicitly:
every operation receives the current instant `now`, and a blocking
`time.sleep(w)` is modelled as advancing the clock by exactly `w`.
-/

/-- Structure `RateLimitState` from `rate_limiter.py`: state of a single bucket. -/
structure RateLimitState where
  available : ℚ
  max_tokens : ℚ
  refill_rate : ℚ
  last_update : ℚ
  deriving Repr, DecidableEq

/-- Method `RateLimiter._refill`: lazy refill of a bucket at instant `now`.
`elapsed = now - last_update`; `available` grows by `elapsed * refill_rate`,
capped at `max_tokens`; `last_update` becomes `now`. -/
def RateLimitState.refill (b : RateLimitState) (now : ℚ) : RateLimitState :=
  { b with
    available := min b.max_tokens (b.available + (now - b.last_update) * b.refill_rate)
    last_update := now }

/-- Methods `RateLimiter._acquire_request` / `_acquire_token` (identical logic):
refill, then either debit immediately (returning wait 0) or return the
wait `(tokens - available) / refill_rate` without debiting. -/
def RateLimitState.acquireCheck (b : RateLimitState) (tokens now : ℚ) :
    ℚ × RateLimitState :=
  let b1 := b.refill now
  if tokens ≤ b1.available then
    (0, { b1 with available := b1.available - tokens })
  else
    ((tokens - b1.available) / b1.refill_rate, b1)

/-- One per-bucket block of `RateLimiter.acquire`: run the check; when the
returned wait is positive, sleep for it (clock advances by the wait),
refill again and debit unconditionally. Returns the wait, the new bucket
and the new clock instant. -/
def RateLimitState.acquireStep (b : RateLimitState) (tokens now : ℚ) :
    ℚ × RateLimitState × ℚ :=
  let r := b.acquireCheck tokens now
  if 0 < r.1 then
    let now1 := now + r.1
    let b2 := r.2.refill now1
    (r.1, { b2 with available := b2.available - tokens }, now1)
  else
    (r.1, r.2, now)

/-- The pair of buckets owned by a `RateLimiter` (the lock itself is not
state-relevant in the sequential model). -/
structure RateLimiter where
  request_bucket : RateLimitState
  token_bucket : RateLimitState
  deriving Repr, DecidableEq

/-- Constructor `RateLimiter.__init__` (and identically `AsyncRateLimiter.__init__`):
both buckets start full; the request bucket has capacity and rate
`requests_per_second`; the token bucket has capacity `tokens_per_minute`
and rate `tokens_per_minute / 60`. No validation is performed. -/
def RateLimiter.init (requests_per_second tokens_per_minute now : ℚ) :
    RateLimiter where
  request_bucket :=
    { available := requests_per_second
      max_tokens := requests_per_second
      refill_rate := requests_per_second
      last_update := now }
  token_bucket :=
    { available := tokens_per_minute
      max_tokens := tokens_per_minute
      refill_rate := tokens_per_minute / 60
      last_update := now }

/-- Method `RateLimiter.acquire`: request bucket first, then token bucket, each
through the check / optional-sleep / unconditional-debit block; returns
the total wait, the new limiter and the final clock instant. -/
def RateLimiter.acquire (s : RateLimiter) (request_tokens token_count now : ℚ) :
    ℚ × RateLimiter × ℚ :=
  let r1 := s.request_bucket.acquireStep request_tokens now
  let r2 := s.token_bucket.acquireStep token_count r1.2.2
  (r1.1 + r2.1, ⟨r1.2.1, r2.2.1⟩, r2.2.2)

/-- Method `RateLimiter.get_wait_time`: refill both buckets, compute each
bucket's needed wait (0 when already satisfiable), return the maximum
together with the post-refill limiter state (the refills persist). -/
def RateLimiter.get_wait_time (s : RateLimiter)
    (request_tokens token_count now : ℚ) : ℚ × RateLimiter :=
  let rb := s.request_bucket.refill now
  let tb := s.token_bucket.refill now
  let wait_request :=
    if rb.available < request_tokens then
      (request_tokens - rb.available) / rb.refill_rate
    else 0
  let wait_token :=
    if tb.available < token_count then
      (token_count - tb.available) / tb.refill_rate
    else 0
  (max wait_request wait_token, ⟨rb, tb⟩)

/-- Method `RateLimitedConversations._refund_tokens` (and the async variant,
which has identical arithmetic): when `actual_tokens < estimated`, add
`estimated - actual_tokens` to the token bucket's `available` directly —
without any clamping at capacity; otherwise do nothing. -/
def RateLimiter.refund_tokens (s : RateLimiter) (estimated actual_tokens : ℚ) :
    RateLimiter :=
  if actual_tokens < estimated then
    { s with
      token_bucket :=
        { s.token_bucket with
          available := s.token_bucket.available + (estimated - actual_tokens) } }
  else s

/-- Spec-side per-bucket acquire, following §4.2 of the spec word for
word: refill; if `available ≥ cost` debit immediately with wait 0;
otherwise `wait = (cost - available) / refillRate`, sleep for `wait`,
refill again and debit `cost` unconditionally. -/
def RateLimitState.acquireBucketSpec (b : RateLimitState) (cost now : ℚ) :
    ℚ × RateLimitState × ℚ :=
  let b1 := b.refill now
  if cost ≤ b1.available then
    (0, { b1 with available := b1.available - cost }, now)
  else
    let wait := (cost - b1.available) / b1.refill_rate
    let now1 := now + wait
    let b2 := b1.refill now1
    (wait, { b2 with available := b2.available - cost }, now1)

/-- Spec-side acquire: the §4.2 two-branch algorithm applied to the
request bucket and then to the token bucket, returning the sum of the
two wait contributions. -/
def RateLimiter.acquireSpec (s : RateLimiter)
    (request_tokens token_count now : ℚ) : ℚ × RateLimiter × ℚ :=
  let r1 := s.request_bucket.acquireBucketSpec request_tokens now
  let r2 := s.token_bucket.acquireBucketSpec token_count r1.2.2
  (r1.1 + r2.1, ⟨r1.2.1, r2.2.1⟩, r2.2.2)

/-- The rate-limit checks of `RatelimitConfig.__post_init__`
(`config.py`): reject non-positive `requests_per_second` or
`tokens_per_minute` with a `ValueError` message. -/
def RatelimitConfig.validateRates (requests_per_second tokens_per_minute : ℚ) :
    Except String Unit :=
  if requests_per_second ≤ 0 then
    Except.error "requests_per_second must be positive"
  else if tokens_per_minute ≤ 0 then
    Except.error "tokens_per_minute must be positive"
  else Except.ok ()

/-! Reachability model for the bucket invariant (C2). -/

/-- A limiter together with the current monotonic clock instant. -/
structure LimiterClock where
  rl : RateLimiter
  clock : ℚ
  deriving Repr, DecidableEq

/-- One operation of the limiter, as performed by the code. Each
operation reads the monotonic clock at some instant `now ≥ clock`
(monotonic clocks never go backwards). `acquire` carries the stated
caller precondition: costs are non-negative and do not exceed the
bucket capacities (what will eventually be available). `refund` is the
reconciliation call with `actual < estimated` (so the refunded amount
is positive), as performed by `_refund_tokens`. -/
inductive LimiterStep : LimiterClock → LimiterClock → Prop
  | refill_request (s : LimiterClock) (now : ℚ) (h : s.clock ≤ now) :
      LimiterStep s ⟨⟨s.rl.request_bucket.refill now, s.rl.token_bucket⟩, now⟩
  | refill_token (s : LimiterClock) (now : ℚ) (h : s.clock ≤ now) :
      LimiterStep s ⟨⟨s.rl.request_bucket, s.rl.token_bucket.refill now⟩, now⟩
  | acquire (s : LimiterClock) (now r k : ℚ) (h : s.clock ≤ now)
      (hr0 : 0 ≤ r) (hr1 : r ≤ s.rl.request_bucket.max_tokens)
      (hk0 : 0 ≤ k) (hk1 : k ≤ s.rl.token_bucket.max_tokens) :
      LimiterStep s ⟨(s.rl.acquire r k now).2.1, (s.rl.acquire r k now).2.2⟩
  | get_wait_time (s : LimiterClock) (now r k : ℚ) (h : s.clock ≤ now) :
      LimiterStep s ⟨(s.rl.get_wait_time r k now).2, now⟩
  | refund (s : LimiterClock) (estimated actual : ℚ) (h : actual < estimated) :
      LimiterStep s ⟨s.rl.refund_tokens estimated actual, s.clock⟩

/-- States reachable by any sequence of limiter operations. -/
def LimiterReachable : LimiterClock → LimiterClock → Prop :=
  Relation.ReflTransGen LimiterStep

/-- Same operations with the refund operation excluded. -/
inductive LimiterStepNoRefund : LimiterClock → LimiterClock → Prop
  | refill_request (s : LimiterClock) (now : ℚ) (h : s.clock ≤ now) :
      LimiterStepNoRefund s ⟨⟨s.rl.request_bucket.refill now, s.rl.token_bucket⟩, now⟩
  | refill_token (s : LimiterClock) (now : ℚ) (h : s.clock ≤ now) :
      LimiterStepNoRefund s ⟨⟨s.rl.request_bucket, s.rl.token_bucket.refill now⟩, now⟩
  | acquire (s : LimiterClock) (now r k : ℚ) (h : s.clock ≤ now)
      (hr0 : 0 ≤ r) (hr1 : r ≤ s.rl.request_bucket.max_tokens)
      (hk0 : 0 ≤ k) (hk1 : k ≤ s.rl.token_bucket.max_tokens) :
      LimiterStepNoRefund s ⟨(s.rl.acquire r k now).2.1, (s.rl.acquire r k now).2.2⟩
  | get_wait_time (s : LimiterClock) (now r k : ℚ) (h : s.clock ≤ now) :
      LimiterStepNoRefund s ⟨(s.rl.get_wait_time r k now).2, now⟩

/-- States reachable without ever calling refund. -/
def LimiterReachableNoRefund : LimiterClock → LimiterClock → Prop :=
  Relation.ReflTransGen LimiterStepNoRefund

/-- Well-formedness of one bucket relative to the current clock:
positive refill rate, `0 ≤ available ≤ max_tokens`, and a `last_update`
not in the future. -/
def BucketInv (b : RateLimitState) (clock : ℚ) : Prop :=
  0 < b.refill_rate ∧ 0 ≤ b.available ∧ b.available ≤ b.max_tokens ∧
    b.last_update ≤ clock

/-- Well-formedness of a limiter-with-clock state: both buckets are
well formed. -/
def LimiterInv (s : LimiterClock) : Prop :=
  BucketInv s.rl.request_bucket s.clock ∧ BucketInv s.rl.token_bucket s.clock

/-! Stream reconciliation model (C7). -/

/-- The `data` payload of a stream event: its `type` string and the
usage it carries (`none` when no usage information is present, as in
`_extract_usage` returning 0). -/
structure EventData where
  type : String
  total_tokens : Option ℚ
  deriving Repr, DecidableEq

/-- A stream event; `data = none` models an event object without a
`data` attribute (the `hasattr(event, "data")` check). -/
structure StreamEvent where
  data : Option EventData
  deriving Repr, DecidableEq

/-- Method `RateLimitedConversations._extract_usage` applied to an event data
object: the `total_tokens` of its usage, or 0 when absent. -/
def extractUsage (d : EventData) : ℚ :=
  match d.total_tokens with
  | some t => t
  | none => 0

/-- Whether an event is the terminal usage event the stream wrapper
reacts to: it has a `data` payload whose type is
`conversation.response.done`. -/
def StreamEvent.isTerminalDone (e : StreamEvent) : Bool :=
  match e.data with
  | some d => d.type = "conversation.response.done"
  | none => false

/-- Method `RateLimitedConversations._process_stream_response` (and its async
variant), restricted to its effect on the limiter: for each event of
the stream, when the event carries a `data` payload of type
`conversation.response.done`, extract the usage and refund
`estimated - actual` to the token bucket; all other events leave the
limiter untouched. -/
def processStream (events : List StreamEvent) (estimated : ℚ)
    (s : RateLimiter) : RateLimiter :=
  match events with
  | [] => s
  | e :: rest =>
    let s1 :=
      match e.data with
      | some d =>
        if d.type = "conversation.response.done" then
          s.refund_tokens estimated (extractUsage d)
        else s
      | none => s
    processStream rest estimated s1

/-! Token counter model (C9, C10). -/

/-- One item of a multimodal content list (`isinstance(item, dict)`
branch of `count_messages`): a text part, an image-url part, or any
other item (a non-dict item or a dict of another type, both of which
are skipped). -/
inductive ContentItem
  | textItem (text : String)
  | imageUrl
  | other
  deriving Repr, DecidableEq

/-- A message's `content` field: either a plain string or a list of
multimodal items. -/
inductive Content
  | str (s : String)
  | items (l : List ContentItem)
  deriving Repr, DecidableEq

/-- A chat message as consumed by `TokenCounter.count_messages`. -/
structure Message where
  role : String
  content : Content
  name : Option String
  deriving Repr, DecidableEq

/-- Python truthiness of `message.get("name")`: present and non-empty. -/
def Message.nameTruthy (m : Message) : Bool :=
  match m.name with
  | some n => n ≠ ""
  | none => false

/-- Token contribution of one multimodal content list, folded left as
the code does. A text part reaches
`self._encoding.encodeordinary(...)` — an attribute that does not exist
on the encoding object — so evaluation raises `AttributeError` there;
an image-url part adds the fixed surcharge 85; other items add 0. -/
def countItems : List ContentItem → Nat → Except String Nat
  | [], acc => Except.ok acc
  | ContentItem.textItem _ :: _, _ =>
      Except.error "AttributeError: Encoding object has no attribute encodeordinary"
  | ContentItem.imageUrl :: rest, acc => countItems rest (acc + 85)
  | ContentItem.other :: rest, acc => countItems rest acc

/-- Token contribution of one message's content (the per-message loop
body of `count_messages`, without the fixed 4-token overhead): for a
string content, the length of its `encode_ordinary` encoding plus one
token when a truthy `name` is present; for a list content, the
multimodal fold. `enc` is the injected `encode_ordinary` tokenizer. -/
def countMessage (enc : String → List Nat) (m : Message) : Except String Nat :=
  match m.content with
  | Content.str s =>
      Except.ok ((enc s).length + (if m.nameTruthy then 1 else 0))
  | Content.items l => countItems l 0

/-- Method `TokenCounter.count_messages`: 0 for the empty list; otherwise
4 tokens of overhead per message, plus each message's content
contribution, plus 2 tokens for the assistant message prefix. An error
in any content contribution aborts the whole computation. -/
def countMessages (enc : String → List Nat) (messages : List Message) :
    Except String Nat :=
  match messages with
  | [] => Except.ok 0
  | _ => do
    let per ← messages.mapM (countMessage enc)
    Except.ok (4 * messages.length + per.sum + 2)

/-- A fixed concrete tokenizer used for closed evaluations: one token
per character. -/
def encPerChar : String → List Nat := fun s => s.toList.map Char.toNat

/-- Whether a message's content is a plain string. -/
def Message.isPlain (m : Message) : Bool :=
  match m.content with
  | Content.str _ => true
  | Content.items _ => false

/-- The token contribution of a plain-text message: the encoding length
of its content plus one token for a truthy name. -/
def plainTokens (enc : String → List Nat) (m : Message) : Nat :=
  match m.content with
  | Content.str s => (enc s).length + (if m.nameTruthy then 1 else 0)
  | Content.items _ => 0

/-! Helper lemmas about refill. -/

theorem refill_available (b : RateLimitState) (now : ℚ) :
    (b.refill now).available
      = min b.max_tokens (b.available + (now - b.last_update) * b.refill_rate) := rfl

theorem refill_last_update (b : RateLimitState) (now : ℚ) :
    (b.refill now).last_update = now := rfl

theorem refill_max_tokens (b : RateLimitState) (now : ℚ) :
    (b.refill now).max_tokens = b.max_tokens := rfl

theorem refill_refill_rate (b : RateLimitState) (now : ℚ) :
    (b.refill now).refill_rate = b.refill_rate := rfl

theorem refill_le_cap (b : RateLimitState) (now : ℚ) :
    (b.refill now).available ≤ b.max_tokens := min_le_left _ _

theorem le_refill (b : RateLimitState) (now : ℚ) (hlu : b.last_update ≤ now)
    (hr : 0 ≤ b.refill_rate) (hcap : b.available ≤ b.max_tokens) :
    b.available ≤ (b.refill now).available :=
  le_min hcap (le_add_of_nonneg_right (mul_nonneg (sub_nonneg.mpr hlu) hr))

theorem refill_nonneg (b : RateLimitState) (now : ℚ) (hlu : b.last_update ≤ now)
    (hr : 0 ≤ b.refill_rate) (h0 : 0 ≤ b.available)
    (hcap : b.available ≤ b.max_tokens) :
    0 ≤ (b.refill now).available :=
  h0.trans (le_refill b now hlu hr hcap)

theorem BucketInv.refill {b : RateLimitState} {clock now : ℚ}
    (h : BucketInv b clock) (hc : clock ≤ now) : BucketInv (b.refill now) now := by
  obtain ⟨hr, h0, h1, hl⟩ := h
  exact ⟨hr, refill_nonneg b now (hl.trans hc) hr.le h0 h1, min_le_left _ _,
    le_refl now⟩

theorem BucketInv.mono {b : RateLimitState} {clock clock' : ℚ}
    (h : BucketInv b clock) (hc : clock ≤ clock') : BucketInv b clock' :=
  ⟨h.1, h.2.1, h.2.2.1, h.2.2.2.trans hc⟩

/-! Helper lemmas about the per-bucket acquire path. -/

theorem acquireCheck_of_le {b : RateLimitState} {tokens now : ℚ}
    (h : tokens ≤ (b.refill now).available) :
    b.acquireCheck tokens now
      = (0, { b.refill now with available := (b.refill now).available - tokens }) := by
  simp [RateLimitState.acquireCheck, h]

theorem acquireCheck_of_gt {b : RateLimitState} {tokens now : ℚ}
    (h : (b.refill now).available < tokens) :
    b.acquireCheck tokens now
      = ((tokens - (b.refill now).available) / (b.refill now).refill_rate,
         b.refill now) := by
  simp [RateLimitState.acquireCheck, not_le.mpr h]

theorem acquireStep_of_le {b : RateLimitState} {tokens now : ℚ}
    (h : tokens ≤ (b.refill now).available) :
    b.acquireStep tokens now
      = (0, { b.refill now with available := (b.refill now).available - tokens },
         now) := by
  simp [RateLimitState.acquireStep, acquireCheck_of_le h]

theorem acquireStep_of_gt {b : RateLimitState} {tokens now : ℚ}
    (hr : 0 < b.refill_rate) (h : (b.refill now).available < tokens) :
    b.acquireStep tokens now
      = ((tokens - (b.refill now).available) / b.refill_rate,
         { (b.refill now).refill
             (now + (tokens - (b.refill now).available) / b.refill_rate) with
           available :=
             ((b.refill now).refill
               (now + (tokens - (b.refill now).available) / b.refill_rate)).available
               - tokens },
         now + (tokens - (b.refill now).available) / b.refill_rate) := by
  have hw : 0 < (tokens - (b.refill now).available) / b.refill_rate :=
    div_pos (by linarith) hr
  simp [RateLimitState.acquireStep, acquireCheck_of_gt h,
    refill_refill_rate, hw]

/-- After sleeping for exactly the computed wait, the second refill sets
`available` to `min max_tokens tokens`. -/
theorem refill_after_wait {b : RateLimitState} {tokens now : ℚ}
    (hr : 0 < b.refill_rate) :
    ((b.refill now).refill
        (now + (tokens - (b.refill now).available) / b.refill_rate)).available
      = min b.max_tokens tokens := by
  rw [refill_available, refill_max_tokens, refill_refill_rate,
    refill_last_update]
  have hmul : (now + (tokens - (b.refill now).available) / b.refill_rate - now)
      * b.refill_rate = tokens - (b.refill now).available := by
    field_simp
    ring
  rw [hmul]
  congr 1
  ring

/-- The per-bucket acquire path preserves bucket well-formedness, never
moves the clock backwards, and leaves capacity and rate unchanged,
provided the requested cost is within `[0, max_tokens]`. -/
theorem acquireStep_inv {b : RateLimitState} {cost now clock : ℚ}
    (h : BucketInv b clock) (hc : clock ≤ now) (h0 : 0 ≤ cost)
    (h1 : cost ≤ b.max_tokens) :
    BucketInv (b.acquireStep cost now).2.1 (b.acquireStep cost now).2.2 ∧
      now ≤ (b.acquireStep cost now).2.2 ∧
      (b.acquireStep cost now).2.1.max_tokens = b.max_tokens ∧
      (b.acquireStep cost now).2.1.refill_rate = b.refill_rate := by
  have hb1 : BucketInv (b.refill now) now := h.refill hc
  obtain ⟨hr, ha0, ha1, _⟩ := hb1
  rcases le_or_lt cost (b.refill now).available with hcase | hcase
  · rw [acquireStep_of_le hcase]
    refine ⟨⟨hr, ?_, ?_, le_refl _⟩, le_refl _, rfl, rfl⟩
    · exact sub_nonneg.mpr hcase
    · show (b.refill now).available - cost ≤ (b.refill now).max_tokens
      linarith
  · have hwait : 0 < (cost - (b.refill now).available) / b.refill_rate :=
      div_pos (by linarith) h.1
    rw [acquireStep_of_gt h.1 hcase]
    have havail :
        ((b.refill now).refill
            (now + (cost - (b.refill now).available) / b.refill_rate)).available
          = cost := by
      rw [refill_after_wait h.1, min_eq_right h1]
    refine ⟨⟨h.1, ?_, ?_, le_refl _⟩, by linarith, rfl, rfl⟩
    · show 0 ≤ ((b.refill now).refill
          (now + (cost - (b.refill now).available) / b.refill_rate)).available - cost
      rw [havail]
      linarith
    · show ((b.refill now).refill
          (now + (cost - (b.refill now).available) / b.refill_rate)).available - cost
        ≤ b.max_tokens
      rw [havail]
      have := h.2.1
      have := h.2.2.1
      linarith

/-! Limiter-level invariance lemmas. -/

theorem acquire_inv {s : LimiterClock} {now r k : ℚ} (h : LimiterInv s)
    (hc : s.clock ≤ now) (hr0 : 0 ≤ r)
    (hr1 : r ≤ s.rl.request_bucket.max_tokens) (hk0 : 0 ≤ k)
    (hk1 : k ≤ s.rl.token_bucket.max_tokens) :
    LimiterInv ⟨(s.rl.acquire r k now).2.1, (s.rl.acquire r k now).2.2⟩ := by
  obtain ⟨hreq, htok⟩ := h
  obtain ⟨hinv1, hle1, _, _⟩ := acquireStep_inv hreq hc hr0 hr1
  have htok1 : BucketInv s.rl.token_bucket
      (s.rl.request_bucket.acquireStep r now).2.2 :=
    htok.mono (hc.trans hle1)
  obtain ⟨hinv2, hle2, _, _⟩ := acquireStep_inv htok1 (le_refl _) hk0 hk1
  exact ⟨hinv1.mono hle2, hinv2⟩

theorem get_wait_time_inv {s : LimiterClock} {now r k : ℚ} (h : LimiterInv s)
    (hc : s.clock ≤ now) :
    LimiterInv ⟨(s.rl.get_wait_time r k now).2, now⟩ :=
  ⟨h.1.refill hc, h.2.refill hc⟩

theorem stepNoRefund_inv {s s' : LimiterClock} (h : LimiterInv s)
    (hstep : LimiterStepNoRefund s s') : LimiterInv s' := by
  cases hstep with
  | refill_request now hc => exact ⟨h.1.refill hc, h.2.mono hc⟩
  | refill_token now hc => exact ⟨h.1.mono hc, h.2.refill hc⟩
  | acquire now r k hc hr0 hr1 hk0 hk1 =>
      exact acquire_inv h hc hr0 hr1 hk0 hk1
  | get_wait_time now r k hc => exact get_wait_time_inv h hc

theorem reachableNoRefund_inv {s0 s : LimiterClock} (h0 : LimiterInv s0)
    (h : LimiterReachableNoRefund s0 s) : LimiterInv s := by
  induction h with
  | refl => exact h0
  | tail _ hstep ih => exact stepNoRefund_inv ih hstep

theorem init_inv (rps tpm now : ℚ) (hr : 0 < rps) (ht : 0 < tpm) :
    LimiterInv ⟨RateLimiter.init rps tpm now, now⟩ :=
  ⟨⟨hr, hr.le, le_refl _, le_refl _⟩,
   ⟨div_pos ht (by norm_num), ht.le, le_refl _, le_refl _⟩⟩

/-! Claim theorems. -/

/-- C8: for every bucket with `0 ≤ available ≤ capacity`, non-negative
refill rate and elapsed time `t = now - lastRefill ≥ 0`, refill yields
`available = min(capacity, available + t * refillRate)` and sets
`lastRefill := now`; the new `available` is never negative, never
exceeds capacity, and is never less than the prior `available`. -/
theorem C8_refill_correct (b : RateLimitState) (now : ℚ)
    (hlu : b.last_update ≤ now) (hrate : 0 ≤ b.refill_rate)
    (h0 : 0 ≤ b.available) (h1 : b.available ≤ b.max_tokens) :
    (b.refill now).available
        = min b.max_tokens (b.available + (now - b.last_update) * b.refill_rate)
      ∧ (b.refill now).last_update = now
      ∧ 0 ≤ (b.refill now).available
      ∧ (b.refill now).available ≤ b.max_tokens
      ∧ b.available ≤ (b.refill now).available :=
  ⟨rfl, rfl, refill_nonneg b now hlu hrate h0 h1, refill_le_cap b now,
   le_refill b now hlu hrate h1⟩

/-- Witness for C8 at the bucket (available 1, capacity 2, rate 3, last
update 0) refilled at instant 1. -/
theorem C8_refill_correct_witness :
    ((RateLimitState.mk 1 2 3 0).refill 1).available
        = min 2 (1 + (1 - 0) * 3)
      ∧ ((RateLimitState.mk 1 2 3 0).refill 1).last_update = 1
      ∧ 0 ≤ ((RateLimitState.mk 1 2 3 0).refill 1).available
      ∧ ((RateLimitState.mk 1 2 3 0).refill 1).available ≤ 2
      ∧ (1 : ℚ) ≤ ((RateLimitState.mk 1 2 3 0).refill 1).available :=
  C8_refill_correct ⟨1, 2, 3, 0⟩ 1 (by norm_num) (by norm_num) (by norm_num)
    (by norm_num)

/-- C1 counterexample: with the token bucket full (available = capacity
= 120), refunding 1 (estimate 1, actual 0, so x = 1 ≥ 0) yields
available = 121, while the claim demands min(120, 120 + 1) = 120 — the
code adds without clamping at capacity. -/
theorem C1_refund_clamp_cex :
    ((RateLimiter.init 2 120 0).refund_tokens 1 0).token_bucket.available = 121
      ∧ min ((RateLimiter.init 2 120 0).token_bucket.max_tokens)
          ((RateLimiter.init 2 120 0).token_bucket.available + (1 - 0)) = 120
      ∧ (121 : ℚ) ≠ 120 := by
  refine ⟨?_, ?_, by norm_num⟩
  · norm_num [RateLimiter.refund_tokens, RateLimiter.init]
  · norm_num [RateLimiter.init]

/-- C1 amended: when `actual < estimated`, the refund adds exactly
`estimated - actual` to the token bucket's `available` with no clamping
(the result may exceed capacity); it never fails, and it changes
nothing else (request bucket, capacity, rate and timestamp are
untouched). -/
theorem C1_refund_adds_unclamped (s : RateLimiter) (estimated actual : ℚ)
    (h : actual < estimated) :
    (s.refund_tokens estimated actual).token_bucket.available
        = s.token_bucket.available + (estimated - actual)
      ∧ (s.refund_tokens estimated actual).request_bucket = s.request_bucket
      ∧ (s.refund_tokens estimated actual).token_bucket.max_tokens
        = s.token_bucket.max_tokens
      ∧ (s.refund_tokens estimated actual).token_bucket.refill_rate
        = s.token_bucket.refill_rate
      ∧ (s.refund_tokens estimated actual).token_bucket.last_update
        = s.token_bucket.last_update := by
  simp [RateLimiter.refund_tokens, h]

/-- Witness for C1 amended at the full limiter of capacity (2, 120) with
estimate 1 and actual 0. -/
theorem C1_refund_adds_unclamped_witness :
    ((RateLimiter.init 2 120 0).refund_tokens 1 0).token_bucket.available
        = (RateLimiter.init 2 120 0).token_bucket.available + (1 - 0)
      ∧ ((RateLimiter.init 2 120 0).refund_tokens 1 0).request_bucket
        = (RateLimiter.init 2 120 0).request_bucket
      ∧ ((RateLimiter.init 2 120 0).refund_tokens 1 0).token_bucket.max_tokens
        = (RateLimiter.init 2 120 0).token_bucket.max_tokens
      ∧ ((RateLimiter.init 2 120 0).refund_tokens 1 0).token_bucket.refill_rate
        = (RateLimiter.init 2 120 0).token_bucket.refill_rate
      ∧ ((RateLimiter.init 2 120 0).refund_tokens 1 0).token_bucket.last_update
        = (RateLimiter.init 2 120 0).token_bucket.last_update :=
  C1_refund_adds_unclamped (RateLimiter.init 2 120 0) 1 0 (by norm_num)

/-- C4 counterexample: `RateLimiter.__init__` performs no validation —
construction with requests_per_second = -1 succeeds, producing a request
bucket with available = capacity = -1 (negative) instead of failing
with a configuration error. -/
theorem C4_init_no_validation_cex :
    (RateLimiter.init (-1) 100 0).request_bucket.available = -1
      ∧ (RateLimiter.init (-1) 100 0).request_bucket.available < 0
      ∧ (RateLimiter.init (-1) 100 0).token_bucket.available = 100 := by
  norm_num [RateLimiter.init]

/-- C4 amended: the non-positive-parameter check lives in
`RatelimitConfig.__post_init__`, not in the limiter constructors: the
config validation succeeds exactly for positive parameters, while
`RateLimiter.__init__` itself accepts any parameters and always
produces both buckets full (available = capacity), with the request
bucket's capacity and rate equal to requests_per_second and the token
bucket's capacity tokens_per_minute with rate tokens_per_minute / 60. -/
theorem C4_validation_in_config (rps tpm now : ℚ) :
    ((RatelimitConfig.validateRates rps tpm = Except.ok ())
        ↔ (0 < rps ∧ 0 < tpm))
      ∧ RateLimiter.init rps tpm now
          = ⟨⟨rps, rps, rps, now⟩, ⟨tpm, tpm, tpm / 60, now⟩⟩
      ∧ (RateLimiter.init rps tpm now).request_bucket.available
          = (RateLimiter.init rps tpm now).request_bucket.max_tokens
      ∧ (RateLimiter.init rps tpm now).token_bucket.available
          = (RateLimiter.init rps tpm now).token_bucket.max_tokens := by
  refine ⟨?_, rfl, rfl, rfl⟩
  constructor
  · intro h
    by_contra hcon
    rw [not_and_or, not_lt, not_lt] at hcon
    rcases hcon with hc | hc
    · simp [RatelimitConfig.validateRates, hc] at h
    · rcases le_or_lt rps 0 with hc2 | hc2
      · simp [RatelimitConfig.validateRates, hc2] at h
      · simp [RatelimitConfig.validateRates, not_le.mpr hc2, hc] at h
  · rintro ⟨h1, h2⟩
    simp [RatelimitConfig.validateRates, not_le.mpr h1, not_le.mpr h2]

/-- C5: `get_wait_time` refills both buckets (the refills persist in the
returned state), returns the maximum of the two per-bucket waits (each
0 when that bucket can already satisfy its cost, otherwise
`(cost - available) / refillRate`), and never decreases `available` in
either bucket. -/
theorem C5_get_wait_time_correct (s : RateLimiter) (r k now : ℚ)
    (hlu1 : s.request_bucket.last_update ≤ now)
    (hr1 : 0 ≤ s.request_bucket.refill_rate)
    (hcap1 : s.request_bucket.available ≤ s.request_bucket.max_tokens)
    (hlu2 : s.token_bucket.last_update ≤ now)
    (hr2 : 0 ≤ s.token_bucket.refill_rate)
    (hcap2 : s.token_bucket.available ≤ s.token_bucket.max_tokens) :
    (s.get_wait_time r k now).1
        = max
            (if (s.request_bucket.refill now).available < r then
              (r - (s.request_bucket.refill now).available)
                / s.request_bucket.refill_rate
            else 0)
            (if (s.token_bucket.refill now).available < k then
              (k - (s.token_bucket.refill now).available)
                / s.token_bucket.refill_rate
            else 0)
      ∧ (s.get_wait_time r k now).2
          = ⟨s.request_bucket.refill now, s.token_bucket.refill now⟩
      ∧ s.request_bucket.available
          ≤ (s.get_wait_time r k now).2.request_bucket.available
      ∧ s.token_bucket.available
          ≤ (s.get_wait_time r k now).2.token_bucket.available :=
  ⟨rfl, rfl, le_refill _ now hlu1 hr1 hcap1, le_refill _ now hlu2 hr2 hcap2⟩

/-- Witness for C5 at the full limiter of capacity (2, 120) previewing
cost (1, 50) at instant 0. -/
theorem C5_get_wait_time_correct_witness :
    ((RateLimiter.init 2 120 0).get_wait_time 1 50 0).1
        = max
            (if (((RateLimiter.init 2 120 0).request_bucket).refill 0).available
                < 1 then
              (1 - (((RateLimiter.init 2 120 0).request_bucket).refill 0).available)
                / (RateLimiter.init 2 120 0).request_bucket.refill_rate
            else 0)
            (if (((RateLimiter.init 2 120 0).token_bucket).refill 0).available
                < 50 then
              (50 - (((RateLimiter.init 2 120 0).token_bucket).refill 0).available)
                / (RateLimiter.init 2 120 0).token_bucket.refill_rate
            else 0)
      ∧ ((RateLimiter.init 2 120 0).get_wait_time 1 50 0).2
          = ⟨((RateLimiter.init 2 120 0).request_bucket).refill 0,
             ((RateLimiter.init 2 120 0).token_bucket).refill 0⟩
      ∧ (RateLimiter.init 2 120 0).request_bucket.available
          ≤ ((RateLimiter.init 2 120 0).get_wait_time 1 50 0).2.request_bucket.available
      ∧ (RateLimiter.init 2 120 0).token_bucket.available
          ≤ ((RateLimiter.init 2 120 0).get_wait_time 1 50 0).2.token_bucket.available :=
  C5_get_wait_time_correct (RateLimiter.init 2 120 0) 1 50 0
    (by norm_num [RateLimiter.init]) (by norm_num [RateLimiter.init])
    (by norm_num [RateLimiter.init]) (by norm_num [RateLimiter.init])
    (by norm_num [RateLimiter.init]) (by norm_num [RateLimiter.init])

/-- Capping identity `min cap (min cap x + y) = min cap (x + y)` for `y ≥ 0`: capping
before or after adding a non-negative amount gives the same result. -/
theorem min_shift (cap x y : ℚ) (hy : 0 ≤ y) :
    min cap (min cap x + y) = min cap (x + y) := by
  rcases le_total x cap with h | h
  · rw [min_eq_right h]
  · rw [min_eq_left h, min_eq_left (le_add_of_nonneg_right hy),
      min_eq_left (by linarith)]

/-- Refilling twice at increasing instants yields the same `available`
as a single refill at the later instant (for a non-negative rate). -/
theorem refill_refill (b : RateLimitState) (now now1 : ℚ) (h : now ≤ now1)
    (hr : 0 ≤ b.refill_rate) :
    ((b.refill now).refill now1).available = (b.refill now1).available := by
  rw [refill_available, refill_available, refill_available, refill_max_tokens,
    refill_refill_rate, refill_last_update,
    min_shift _ _ _ (mul_nonneg (by linarith) hr)]
  congr 1
  ring

theorem acquireStep_wait_nonneg (b : RateLimitState) (cost now : ℚ)
    (hr : 0 < b.refill_rate) : 0 ≤ (b.acquireStep cost now).1 := by
  rcases le_or_lt cost (b.refill now).available with hcase | hcase
  · rw [acquireStep_of_le hcase]
  · rw [acquireStep_of_gt hr hcase]
    exact (div_pos (by linarith) hr).le

/-- The code's per-bucket acquire path coincides with the spec's §4.2
two-branch algorithm whenever the refill rate is positive. -/
theorem acquireStep_eq_spec (b : RateLimitState) (cost now : ℚ)
    (hr : 0 < b.refill_rate) :
    b.acquireStep cost now = b.acquireBucketSpec cost now := by
  rcases le_or_lt cost (b.refill now).available with hcase | hcase
  · rw [acquireStep_of_le hcase]
    simp [RateLimitState.acquireBucketSpec, hcase]
  · rw [acquireStep_of_gt hr hcase]
    simp [RateLimitState.acquireBucketSpec, not_le.mpr hcase,
      refill_refill_rate]

/-- The per-bucket acquire path debits exactly `cost` relative to the
bucket refilled at the instant of the debit. -/
theorem acquireStep_debit (b : RateLimitState) (cost now : ℚ)
    (hr : 0 < b.refill_rate) :
    (b.acquireStep cost now).2.1.available
      = (b.refill (b.acquireStep cost now).2.2).available - cost := by
  rcases le_or_lt cost (b.refill now).available with hcase | hcase
  · rw [acquireStep_of_le hcase]
  · rw [acquireStep_of_gt hr hcase]
    have hw : 0 < (cost - (b.refill now).available) / b.refill_rate :=
      div_pos (by linarith) hr
    show ((b.refill now).refill _).available - cost = _
    rw [refill_refill b now _ (by linarith) hr.le]

/-- C3: with positive refill rates, `acquire` coincides with the spec's
two-branch per-bucket algorithm (request bucket first, then token
bucket); the returned value is the sum of the two per-bucket wait
contributions, each non-negative (hence so is the sum); and each bucket
ends up debited by exactly its cost relative to its value refilled at
the instant of the debit. -/
theorem C3_acquire_follows_spec (s : RateLimiter) (r k now : ℚ)
    (hrate1 : 0 < s.request_bucket.refill_rate)
    (hrate2 : 0 < s.token_bucket.refill_rate) :
    s.acquire r k now = s.acquireSpec r k now
      ∧ (s.acquire r k now).1
          = (s.request_bucket.acquireStep r now).1
            + (s.token_bucket.acquireStep k
                (s.request_bucket.acquireStep r now).2.2).1
      ∧ 0 ≤ (s.request_bucket.acquireStep r now).1
      ∧ 0 ≤ (s.token_bucket.acquireStep k
              (s.request_bucket.acquireStep r now).2.2).1
      ∧ 0 ≤ (s.acquire r k now).1
      ∧ (s.acquire r k now).2.1.request_bucket.available
          = (s.request_bucket.refill
              (s.request_bucket.acquireStep r now).2.2).available - r
      ∧ (s.acquire r k now).2.1.token_bucket.available
          = (s.token_bucket.refill (s.acquire r k now).2.2).available - k := by
  have hw1 := acquireStep_wait_nonneg s.request_bucket r now hrate1
  have hw2 := acquireStep_wait_nonneg s.token_bucket k
    (s.request_bucket.acquireStep r now).2.2 hrate2
  refine ⟨?_, rfl, hw1, hw2, add_nonneg hw1 hw2,
    acquireStep_debit s.request_bucket r now hrate1,
    acquireStep_debit s.token_bucket k
      (s.request_bucket.acquireStep r now).2.2 hrate2⟩
  simp only [RateLimiter.acquire, RateLimiter.acquireSpec,
    acquireStep_eq_spec _ _ _ hrate1, acquireStep_eq_spec _ _ _ hrate2]

/-- Witness for C3 at the full limiter of capacity (2, 120) acquiring
(1, 50) at instant 0. -/
theorem C3_acquire_follows_spec_witness :
    (RateLimiter.init 2 120 0).acquire 1 50 0
        = (RateLimiter.init 2 120 0).acquireSpec 1 50 0
      ∧ ((RateLimiter.init 2 120 0).acquire 1 50 0).1
          = (((RateLimiter.init 2 120 0).request_bucket).acquireStep 1 0).1
            + (((RateLimiter.init 2 120 0).token_bucket).acquireStep 50
                ((((RateLimiter.init 2 120 0).request_bucket).acquireStep 1 0)).2.2).1
      ∧ 0 ≤ (((RateLimiter.init 2 120 0).request_bucket).acquireStep 1 0).1
      ∧ 0 ≤ (((RateLimiter.init 2 120 0).token_bucket).acquireStep 50
              ((((RateLimiter.init 2 120 0).request_bucket).acquireStep 1 0)).2.2).1
      ∧ 0 ≤ ((RateLimiter.init 2 120 0).acquire 1 50 0).1
      ∧ ((RateLimiter.init 2 120 0).acquire 1 50 0).2.1.request_bucket.available
          = (((RateLimiter.init 2 120 0).request_bucket).refill
              ((((RateLimiter.init 2 120 0).request_bucket).acquireStep 1 0)).2.2).available - 1
      ∧ ((RateLimiter.init 2 120 0).acquire 1 50 0).2.1.token_bucket.available
          = (((RateLimiter.init 2 120 0).token_bucket).refill
              (((RateLimiter.init 2 120 0).acquire 1 50 0)).2.2).available - 50 :=
  C3_acquire_follows_spec (RateLimiter.init 2 120 0) 1 50 0
    (by norm_num [RateLimiter.init]) (by norm_num [RateLimiter.init])

/-- C6: the concrete scenario — a limiter built with
requests_per_second = 2 and tokens_per_minute = 120 at t = 0 (buckets
full at 2 and 120), with the clock advancing only during waits. Three
back-to-back calls of acquire(1, 50) return waits 0, 0 and 15; the
availabilities after the first two calls are (req 1, tok 70) and
(req 0, tok 20); and the third call decomposes into a 1/2-second
request-bucket wait plus a 29/2-second token-bucket wait, 1/2 + 29/2
= 15. -/
theorem C6_concrete_scenario :
    ((RateLimiter.init 2 120 0).acquire 1 50 0).1 = 0
      ∧ ((RateLimiter.init 2 120 0).acquire 1 50 0).2.1
          = ⟨⟨1, 2, 2, 0⟩, ⟨70, 120, 2, 0⟩⟩
      ∧ ((RateLimiter.init 2 120 0).acquire 1 50 0).2.2 = 0
      ∧ ((RateLimiter.mk ⟨1, 2, 2, 0⟩ ⟨70, 120, 2, 0⟩).acquire 1 50 0).1 = 0
      ∧ ((RateLimiter.mk ⟨1, 2, 2, 0⟩ ⟨70, 120, 2, 0⟩).acquire 1 50 0).2.1
          = ⟨⟨0, 2, 2, 0⟩, ⟨20, 120, 2, 0⟩⟩
      ∧ ((RateLimiter.mk ⟨1, 2, 2, 0⟩ ⟨70, 120, 2, 0⟩).acquire 1 50 0).2.2 = 0
      ∧ ((RateLimiter.mk ⟨0, 2, 2, 0⟩ ⟨20, 120, 2, 0⟩).acquire 1 50 0).1 = 15
      ∧ (RateLimitState.mk 0 2 2 0).acquireStep 1 0
          = (1/2, ⟨0, 2, 2, 1/2⟩, 1/2)
      ∧ (RateLimitState.mk 20 120 2 0).acquireStep 50 (1/2)
          = (29/2, ⟨0, 120, 2, 15⟩, 15)
      ∧ (1/2 : ℚ) + 29/2 = 15 := by
  norm_num [RateLimiter.acquire, RateLimitState.acquireStep,
    RateLimitState.acquireCheck, RateLimitState.refill, RateLimiter.init,
    min_def]

/-- C2 counterexample: from the initial full state of a limiter with
positive parameters (2, 120), a single refund operation (estimate 1,
actual 0 — a non-negative refund amount as the claim allows) reaches a
state whose token bucket has available = 121 > capacity = 120: the
invariant `available ≤ capacity` does not hold in every reachable
state. -/
theorem C2_invariant_cex :
    LimiterReachable ⟨RateLimiter.init 2 120 0, 0⟩
        ⟨(RateLimiter.init 2 120 0).refund_tokens 1 0, 0⟩
      ∧ ((RateLimiter.init 2 120 0).refund_tokens 1 0).token_bucket.available
          = 121
      ∧ ((RateLimiter.init 2 120 0).refund_tokens 1 0).token_bucket.max_tokens
          = 120
      ∧ ¬ ((121 : ℚ) ≤ 120) := by
  refine ⟨Relation.ReflTransGen.single
    (LimiterStep.refund ⟨RateLimiter.init 2 120 0, 0⟩ 1 0 (by norm_num)),
    ?_, ?_, by norm_num⟩
  · norm_num [RateLimiter.refund_tokens, RateLimiter.init]
  · norm_num [RateLimiter.refund_tokens, RateLimiter.init]

/-- C2 amended: for a limiter built with positive parameters, the
invariant `0 ≤ available ≤ capacity` holds for both buckets in every
state reachable from the initial full state through any sequence of
refill, acquire (with non-negative costs not exceeding the
capacities) and getWaitTime; the refund operation must be excluded,
because the code's refund adds without clamping and can push
`available` above capacity. -/
theorem C2_invariant_no_refund (rps tpm now0 : ℚ) (hr : 0 < rps)
    (ht : 0 < tpm) (s : LimiterClock)
    (hreach : LimiterReachableNoRefund ⟨RateLimiter.init rps tpm now0, now0⟩ s) :
    0 ≤ s.rl.request_bucket.available
      ∧ s.rl.request_bucket.available ≤ s.rl.request_bucket.max_tokens
      ∧ 0 ≤ s.rl.token_bucket.available
      ∧ s.rl.token_bucket.available ≤ s.rl.token_bucket.max_tokens := by
  have hinv : LimiterInv s :=
    reachableNoRefund_inv (init_inv rps tpm now0 hr ht) hreach
  exact ⟨hinv.1.2.1, hinv.1.2.2.1, hinv.2.2.1, hinv.2.2.2.1⟩

/-- Witness for C2 amended: the initial state itself (reachable by the
empty sequence) for the limiter with parameters (2, 120). -/
theorem C2_invariant_no_refund_witness :
    0 ≤ (⟨RateLimiter.init 2 120 0, 0⟩ : LimiterClock).rl.request_bucket.available
      ∧ (⟨RateLimiter.init 2 120 0, 0⟩ : LimiterClock).rl.request_bucket.available
          ≤ (⟨RateLimiter.init 2 120 0, 0⟩ : LimiterClock).rl.request_bucket.max_tokens
      ∧ 0 ≤ (⟨RateLimiter.init 2 120 0, 0⟩ : LimiterClock).rl.token_bucket.available
      ∧ (⟨RateLimiter.init 2 120 0, 0⟩ : LimiterClock).rl.token_bucket.available
          ≤ (⟨RateLimiter.init 2 120 0, 0⟩ : LimiterClock).rl.token_bucket.max_tokens :=
  C2_invariant_no_refund 2 120 0 (by norm_num) (by norm_num)
    ⟨RateLimiter.init 2 120 0, 0⟩ Relation.ReflTransGen.refl

/-- Processing a concatenation of event streams processes the pieces in
order. -/
theorem processStream_append (xs ys : List StreamEvent) (est : ℚ)
    (s : RateLimiter) :
    processStream (xs ++ ys) est s
      = processStream ys est (processStream xs est s) := by
  induction xs generalizing s with
  | nil => rfl
  | cons e rest ih => simp [processStream, ih]

/-- A stream with no terminal done event leaves the limiter untouched. -/
theorem processStream_no_terminal (events : List StreamEvent) (est : ℚ)
    (s : RateLimiter) (h : ∀ e ∈ events, e.isTerminalDone = false) :
    processStream events est s = s := by
  induction events with
  | nil => rfl
  | cons e rest ih =>
    have he := h e (List.mem_cons_self e rest)
    have hrest : ∀ x ∈ rest, x.isTerminalDone = false :=
      fun x hx => h x (List.mem_cons_of_mem e hx)
    cases hdata : e.data with
    | none => simp [processStream, hdata, ih hrest]
    | some d =>
      have hne : ¬ (d.type = "conversation.response.done") := by
        simpa [StreamEvent.isTerminalDone, hdata] using he
      simp [processStream, hdata, hne, ih hrest]

/-- C7: the stream wrapper refunds only upon observing the terminal
event of type conversation.response.done. For any event sequence with
no such event (error or cancellation before the terminal event) the
limiter is left exactly as it was — in particular the token bucket
remains reduced by the full estimate acquired beforehand; and when the
sequence does end with the single terminal event reporting
`actual < estimate`, the token bucket is credited by exactly
`estimate - actual`. -/
theorem C7_stream_refund_only_terminal (events : List StreamEvent)
    (est actual : ℚ) (s : RateLimiter)
    (hterm : ∀ e ∈ events, e.isTerminalDone = false) :
    processStream events est s = s
      ∧ (actual < est →
          (processStream
              (events ++ [⟨some ⟨"conversation.response.done", some actual⟩⟩])
              est s).token_bucket.available
            = s.token_bucket.available + (est - actual)) := by
  refine ⟨processStream_no_terminal events est s hterm, fun hlt => ?_⟩
  rw [processStream_append, processStream_no_terminal events est s hterm]
  simp [processStream, extractUsage, RateLimiter.refund_tokens, hlt]

/-- Witness for C7: a stream of one data-less event and one
non-terminal event under estimate 80, then the same stream ended by a
terminal event with actual usage 30, against the full (2, 120)
limiter. -/
theorem C7_stream_refund_only_terminal_witness :
    processStream
        [⟨none⟩, ⟨some ⟨"conversation.response.started", none⟩⟩] 80
        (RateLimiter.init 2 120 0)
      = RateLimiter.init 2 120 0
      ∧ (processStream
            ([⟨none⟩, ⟨some ⟨"conversation.response.started", none⟩⟩]
              ++ [⟨some ⟨"conversation.response.done", some 30⟩⟩]) 80
            (RateLimiter.init 2 120 0)).token_bucket.available
          = (RateLimiter.init 2 120 0).token_bucket.available + (80 - 30) :=
  ⟨(C7_stream_refund_only_terminal
      [⟨none⟩, ⟨some ⟨"conversation.response.started", none⟩⟩] 80 30
      (RateLimiter.init 2 120 0) (by decide)).1,
   (C7_stream_refund_only_terminal
      [⟨none⟩, ⟨some ⟨"conversation.response.started", none⟩⟩] 80 30
      (RateLimiter.init 2 120 0) (by decide)).2 (by norm_num)⟩

/-- C9: the claim says the estimate operation is total on multimodal
entries mixing text and opaque parts, but `count_messages` evaluated on
a message whose content list contains a text part reaches the
nonexistent attribute `encodeordinary` and fails — the code path
contradicts the spec-stated totality (the intended call, used in the
plain-string branch, is `len(encode_ordinary(...))`). -/
theorem C9_multimodal_text_part_errors :
    countMessages encPerChar
        [⟨"user", Content.items [ContentItem.textItem "hi"], none⟩]
      = Except.error
          "AttributeError: Encoding object has no attribute encodeordinary" := by
  rfl

/-- All-plain message lists are counted without error, to the total
given by `plainTokens`. -/
theorem mapM_plain (enc : String → List Nat) (msgs : List Message)
    (h : ∀ m ∈ msgs, m.isPlain = true) :
    msgs.mapM (countMessage enc) = Except.ok (msgs.map (plainTokens enc)) := by
  induction msgs with
  | nil => rfl
  | cons m rest ih =>
    have hm := h m (List.mem_cons_self m rest)
    have hrest := fun x hx => h x (List.mem_cons_of_mem m hx)
    rw [List.mapM_cons, ih hrest]
    cases hc : m.content with
    | str s =>
        simp [countMessage, hc, plainTokens]
        rfl
    | items l => simp [Message.isPlain, hc] at hm

/-- C10: `count_messages` on the empty list returns exactly 0 (neither
the 4-token per-message overhead nor the 2-token assistant prefix is
added), while every non-empty list of plain-text messages is counted
without error to `4 * n + (content tokens) + 2`, which is at least
`4 * n + 2`. -/
theorem C10_count_messages (enc : String → List Nat)
    (messages : List Message) (hne : messages ≠ [])
    (hplain : ∀ m ∈ messages, m.isPlain = true) :
    countMessages enc [] = Except.ok 0
      ∧ countMessages enc messages
          = Except.ok
              (4 * messages.length + (messages.map (plainTokens enc)).sum + 2)
      ∧ 4 * messages.length + 2
          ≤ 4 * messages.length + (messages.map (plainTokens enc)).sum + 2 := by
  refine ⟨rfl, ?_, by omega⟩
  cases messages with
  | nil => exact absurd rfl hne
  | cons m rest =>
    show (do
        let per ← (m :: rest).mapM (countMessage enc)
        Except.ok (4 * (m :: rest).length + per.sum + 2))
      = Except.ok
          (4 * (m :: rest).length + ((m :: rest).map (plainTokens enc)).sum + 2)
    rw [mapM_plain enc (m :: rest) hplain]
    rfl

/-- Witness for C10 at the single plain-text message with role user and
content of two characters. -/
theorem C10_count_messages_witness :
    countMessages encPerChar [] = Except.ok 0
      ∧ countMessages encPerChar [⟨"user", Content.str "ab", none⟩]
          = Except.ok
              (4 * ([(⟨"user", Content.str "ab", none⟩ : Message)]).length
                + (([(⟨"user", Content.str "ab", none⟩ : Message)]).map
                    (plainTokens encPerChar)).sum + 2)
      ∧ 4 * ([(⟨"user", Content.str "ab", none⟩ : Message)]).length + 2
          ≤ 4 * ([(⟨"user", Content.str "ab", none⟩ : Message)]).length
            + (([(⟨"user", Content.str "ab", none⟩ : Message)]).map
                (plainTokens encPerChar)).sum + 2 :=
  C10_count_messages encPerChar [⟨"user", Content.str "ab", none⟩]
    (by simp) (by decide)
